import Mathlib

/-!
Shallow embedding of the core of the `runway` repository (a fork of tarmac):
the Roblox API client factory and its two client variants, the upload
sync-backend abstraction with its retry decorator, the backing-asset-id
resolver, the cache-map builder and the manifest store.  Definitions are
translated from the Rust sources under `src/`; network and filesystem
effects are made explicit (responses, event streams and download logs are
passed in as values), and Rust panics (`unwrap`, `unreachable!`) are made
explicit as a `panicked` outcome.
-/

namespace Runway

/-- Result of a Rust computation that can also abort the process with a
panic (`unwrap()` on `None`, `unreachable!()`), in addition to returning a
value or an error. -/
inductive RustResult (ε : Type) (α : Type) where
  | ok (a : α)
  | err (e : ε)
  | panicked (msg : String)
deriving DecidableEq, Repr

/-- Monadic bind on `RustResult`, modelling the `?` operator together with
panic propagation. -/
def RustResult.bind {ε α β : Type} (r : RustResult ε α) (f : α → RustResult ε β) :
    RustResult ε β :=
  match r with
  | .ok a => f a
  | .err e => .err e
  | .panicked m => .panicked m

/-- True exactly when the computation returned a value. -/
def RustResult.isOk {ε α : Type} : RustResult ε α → Bool
  | .ok _ => true
  | _ => false

/-- Credentials supplied to the client factory
(`RobloxCredentials` in `src/roblox_api/mod.rs`).  `SecretString` is
modelled as `String`, `u64` ids as `Nat`. -/
structure RobloxCredentials where
  token : Option String
  api_key : Option String
  user_id : Option Nat
  group_id : Option Nat
deriving DecidableEq, Repr

/-- Error taxonomy of the API layer (`RobloxApiError` in
`src/roblox_api/mod.rs`).  `StatusCode` is modelled as `Nat`; variants
carrying foreign error values carry a `String` rendering instead. -/
inductive RobloxApiError where
  | Http (msg : String)
  | ApiError (message : String)
  | BadResponseJson (body : String)
  | ResponseError (status : Nat) (body : String)
  | MissingCsrfToken
  | AssetGetFailed
  | MissingAuth
  | MissingOperationPath
  | RbxCloud (msg : String)
  | MalformedAssetId
deriving DecidableEq, Repr

/-- Pair of identifiers returned by an upload
(`UploadResponse` in `src/roblox_api/mod.rs`). -/
structure UploadResponse where
  asset_id : Nat
  backing_asset_id : Nat
deriving DecidableEq, Repr

/-- Creator context of the Open Cloud client (`rbxcloud`
`AssetCreator`): the id is stored as its decimal string, as in
`id.to_string()` in `OpenCloudClient::new`. -/
inductive AssetCreator where
  | group (group_id : String)
  | user (user_id : String)
deriving DecidableEq, Repr

/-- Message produced by the Rust `unreachable!()` macro. -/
def unreachableMsg : String := "internal error: entered unreachable code"

/-- Message produced by `Option::unwrap` on `None`. -/
def unwrapNoneMsg : String := "called Option::unwrap on a None value"

/-- Key-scheme (Open Cloud) client state
(`OpenCloudClient` in `src/roblox_api/open_cloud.rs`). -/
structure OpenCloudClient where
  credentials : RobloxCredentials
  creator : AssetCreator
deriving DecidableEq, Repr

/-- First statement of `OpenCloudClient::new`: the creator context is
computed from `(group_id, user_id)` by a match whose catch-all arm is
`unreachable!()` — reached when both or neither id is present. -/
def creatorFromCredentials (c : RobloxCredentials) : RustResult RobloxApiError AssetCreator :=
  match c.group_id, c.user_id with
  | some id, none => .ok (.group (Nat.repr id))
  | none, some id => .ok (.user (Nat.repr id))
  | _, _ => .panicked unreachableMsg

/-- Constructor of the key-scheme client
(`OpenCloudClient::new` in `src/roblox_api/open_cloud.rs`): computes the
creator context first (possibly panicking), then requires an API key,
failing with `MissingAuth` when it is absent. -/
def OpenCloudClient.new (c : RobloxCredentials) : RustResult RobloxApiError OpenCloudClient :=
  (creatorFromCredentials c).bind fun creator =>
    match c.api_key with
    | none => .err .MissingAuth
    | some _ => .ok { credentials := c, creator := creator }

/-- Cookie-scheme (legacy) client state
(`LegacyClient` in `src/roblox_api/legacy.rs`): credentials plus the
cached anti-forgery token.  The token sits behind a `tokio::sync::RwLock`
in the source; the guard-acquisition discipline of that lock is modelled
explicitly where it matters, in `execute_with_csrf_retry`. -/
structure LegacyClient where
  credentials : RobloxCredentials
  csrf_token : Option String
deriving DecidableEq, Repr

/-- Constructor of the cookie-scheme client
(`LegacyClient::new` in `src/roblox_api/legacy.rs`).  When a token is
present the initial cache is the outcome of the external
`get_csrf_token` network call, passed in here as the oracle
`csrfFetch` (`none` models the error branch that logs and stores `None`);
without a token the cache starts empty.  Construction always succeeds. -/
def LegacyClient.new (csrfFetch : Option String) (c : RobloxCredentials) :
    RustResult RobloxApiError LegacyClient :=
  match c.token with
  | some _ => .ok { credentials := c, csrf_token := csrfFetch }
  | none => .ok { credentials := c, csrf_token := none }

/-- Closed sum of the two client variants the factory can return
(the trait object `Box<dyn RobloxApiClient>`). -/
inductive PreferredClient where
  | openCloud (client : OpenCloudClient)
  | legacy (client : LegacyClient)
deriving DecidableEq, Repr

/-- Maps a value while keeping errors and panics
(models `Ok(Box::new(...?))`). -/
def RustResult.map {ε α β : Type} (f : α → β) : RustResult ε α → RustResult ε β
  | .ok a => .ok (f a)
  | .err e => .err e
  | .panicked m => .panicked m

/-- Client factory (`get_preferred_client` in `src/roblox_api/mod.rs`):
no token and no API key fails with `MissingAuth`; otherwise an API key
selects the Open Cloud client and a token the legacy client, with the
API key taking precedence.  `csrfFetch` is the oracle for the legacy
constructor. -/
def get_preferred_client (csrfFetch : Option String) (credentials : RobloxCredentials) :
    RustResult RobloxApiError PreferredClient :=
  match credentials.token, credentials.api_key with
  | none, none => .err .MissingAuth
  | _, some _ => (OpenCloudClient.new credentials).map .openCloud
  | some _, _ => (LegacyClient.new csrfFetch credentials).map .legacy

/-! ### Key-scheme upload poll loop (`src/roblox_api/open_cloud.rs`) -/

/-- Decimal parse modelling Rust `u64::from_str` on the digits-only
shapes the claims exercise: a non-empty all-digit string parses to its
value, anything else fails.  (The sign prefix `u64::from_str` also
accepts is not modelled.) -/
def parseU64 (s : List Char) : Option Nat :=
  if s.isEmpty then none
  else if s.all Char.isDigit then
    some (s.foldl (fun n c => n * 10 + (c.toNat - 48)) 0)
  else none

/-- Constant `MAX_RETRIES` of `upload_image_inner`. -/
def MAX_RETRIES : Nat := 5

/-- Constant `INITIAL_SLEEP_DURATION` of `upload_image_inner`, in
milliseconds. -/
def INITIAL_SLEEP_MS : Nat := 50

/-- Outcome of the poll loop of `upload_image_inner`, instrumented with
the number of `assets.get` calls made and the list of sleep durations
(in milliseconds) executed between polls. -/
inductive PollOutcome where
  | ok (asset_id : Nat) (polls : Nat) (sleeps : List Nat)
  | assetGetFailed (polls : Nat) (sleeps : List Nat)
  | outOfResponses (polls : Nat) (sleeps : List Nat)
deriving DecidableEq, Repr

/-- Poll loop of `upload_image_inner` (`src/roblox_api/open_cloud.rs`
lines 109-131).  The successive server replies are passed in as a list:
`none` is a pending reply (`res.response` absent) and `some s` a
completed reply whose `asset_id` string is `s`.  A pending reply first
checks `retry_count > MAX_RETRIES` (failing with `AssetGetFailed`),
otherwise increments `retry_count` and sleeps
`INITIAL_SLEEP_MS * retry_count ^ 2`; a completed reply parses the id
(`parse::<u64>()` modelled by `parseU64`), failing with
`AssetGetFailed` on a parse error.  Exhausting the list is reported as
`outOfResponses` (the real server always replies, so the claims only
use lists long enough to settle the loop). -/
def pollLoop : List (Option String) → Nat → Nat → List Nat → PollOutcome
  | [], _, polls, sleeps => .outOfResponses polls sleeps
  | none :: rest, retry_count, polls, sleeps =>
      if retry_count > MAX_RETRIES then .assetGetFailed (polls + 1) sleeps
      else
        pollLoop rest (retry_count + 1) (polls + 1)
          (sleeps ++ [INITIAL_SLEEP_MS * (retry_count + 1) ^ 2])
  | some s :: _, _, polls, sleeps =>
      match parseU64 s.data with
      | some asset_id => .ok asset_id (polls + 1) sleeps
      | none => .assetGetFailed (polls + 1) sleeps

/-- Entry point of the poll phase: `retry_count` starts at `0`, no polls
made, no sleeps executed. -/
def uploadPollPhase (responses : List (Option String)) : PollOutcome :=
  pollLoop responses 0 0 []

/-! ### Sync backends (`src/sync_backend.rs`) -/

/-- Tagged asset identifier (`AssetId` in `src/data`): numeric for
remote uploads, a path for local-only uploads. -/
inductive AssetId where
  | Id (n : Nat)
  | Path (p : String)
deriving DecidableEq, Repr

/-- Result of a sync-backend upload (`UploadResponse` in
`src/sync_backend.rs`). -/
structure SyncUploadResponse where
  id : AssetId
deriving DecidableEq, Repr

/-- Error type of the sync-backend layer (`Error` in
`src/sync_backend.rs`); foreign `StudioInstall`/`Io` payloads are
modelled as strings. -/
inductive SyncError where
  | NoneBackend
  | RateLimited
  | StudioInstall (msg : String)
  | Io (msg : String)
  | RobloxError (e : RobloxApiError)
deriving DecidableEq, Repr

/-- Upload of the remote backend
(`RobloxSyncBackend::upload` in `src/sync_backend.rs`): the outcome of
the wrapped `api_client.upload_image` call is passed in.  On success the
result id is `AssetId::Id` of the response's `backing_asset_id`; a
`ResponseError` with HTTP status 429 becomes `RateLimited`; every other
API error passes through wrapped in `RobloxError`. -/
def robloxSyncUpload (apiResult : Except RobloxApiError UploadResponse) :
    Except SyncError SyncUploadResponse :=
  match apiResult with
  | .ok response => .ok { id := AssetId.Id response.backing_asset_id }
  | .error e =>
      match e with
      | .ResponseError 429 _ => .error .RateLimited
      | e => .error (.RobloxError e)

/-- Loop body of `RetryBackend::upload` (`src/sync_backend.rs` lines
229-247): `for index in 0..attempts`, sleeping before every attempt but
the first, returning the first success.  The wrapped backend is the
oracle `inner`, mapping the attempt index to that attempt's outcome.
Returns the loop result together with the number of inner upload calls
made. -/
def retryLoop (inner : Nat → Except SyncError SyncUploadResponse) (attempts : Nat)
    (index : Nat) : Except SyncError SyncUploadResponse × Nat :=
  if index < attempts then
    match inner index with
    | .ok response => (.ok response, index + 1)
    | .error _ => retryLoop inner attempts (index + 1)
  else
    (.error .RateLimited, index)
termination_by attempts - index

/-- Upload of the retry decorator (`RetryBackend::upload`), with
`attempts = max_retries + 1` as set by `RetryBackend::new`. -/
def retryUpload (max_retries : Nat) (inner : Nat → Except SyncError SyncUploadResponse) :
    Except SyncError SyncUploadResponse × Nat :=
  retryLoop inner (max_retries + 1) 0

/-! ### Cookie-scheme request execution (`src/roblox_api/legacy.rs`) -/

/-- Header-relevant view of a built request: the cookie header and the
anti-forgery token header.  The url, query and body of the request are
irrelevant to the CSRF-retry protocol and are left abstract. -/
structure HttpRequest where
  cookie : Option String
  csrfToken : Option String
deriving DecidableEq, Repr

/-- Response view used by `execute_with_csrf_retry`: the HTTP status and
the optional `X-CSRF-Token` header. -/
structure HttpResponse where
  status : Nat
  csrfHeader : Option String
deriving DecidableEq, Repr

/-- Header attachment (`LegacyClient::attach_headers`): the session
cookie `.ROBLOSECURITY=<token>` when a token is present, and the cached
anti-forgery token when one is cached. -/
def attach_headers (token : Option String) (cache : Option String) : HttpRequest :=
  { cookie := token.map (fun t => ".ROBLOSECURITY=" ++ t)
    csrfToken := cache }

/-- Acquisition of a read guard on the client's `csrf_token`
`tokio::sync::RwLock` by the single executing task: it completes when
that task holds no write guard on the same lock, and suspends forever
when it does — the lock is not reentrant and no other task exists to
release the write guard. -/
def acquireRead (writeGuardHeld : Bool) : Option Unit :=
  if writeGuardHeld then none else some ()

/-- `LegacyClient::attach_headers` as executed
(`src/roblox_api/legacy.rs` lines 224-239): it awaits a read guard on
`self.csrf_token` (line 234) before attaching the headers; `none` means
the await never completes because the same task still holds the write
guard. -/
def attachHeadersAwait (writeGuardHeld : Bool) (token cache : Option String) :
    Option HttpRequest :=
  (acquireRead writeGuardHeld).map (fun _ => attach_headers token cache)

/-- Outcome of `execute_with_csrf_retry`: either a returned response
(with the cache after the call and the number of requests executed), or
the single task suspended forever on a lock acquisition after
`executions` requests. -/
inductive CsrfRetryOutcome where
  | returned (response : HttpResponse) (cache : Option String) (executions : Nat)
  | deadlocked (cache : Option String) (executions : Nat)
deriving DecidableEq, Repr

/-- Request execution protocol
(`LegacyClient::execute_with_csrf_retry` in `src/roblox_api/legacy.rs`
lines 189-220): build the request, attach headers (awaiting a read
guard — no guard is held here, so it completes), execute.  When the
response is 403 and carries an `X-CSRF-Token` header: acquire the
write guard (`let mut csrf_token = self.csrf_token.write().await`,
line 203 — a named binding whose guard lives to the end of the match
arm), store the new token, rebuild the request and call
`attach_headers` again — which awaits a read guard on the same lock
while the write guard is still held, so the task deadlocks before the
second execute.  A 403 without the header, or any non-403, returns the
first response.  `exec` is the network oracle mapping an executed
request to its response. -/
def execute_with_csrf_retry (token : Option String) (cache : Option String)
    (exec : HttpRequest → HttpResponse) : CsrfRetryOutcome :=
  match attachHeadersAwait false token cache with
  | none => .deadlocked cache 0
  | some request =>
    let response := exec request
    if response.status = 403 then
      match response.csrfHeader with
      | some csrf =>
          let newCache := some csrf
          match attachHeadersAwait true token newCache with
          | none => .deadlocked newCache 1
          | some request2 => .returned (exec request2) newCache 2
      | none => .returned response cache 1
    else
      .returned response cache 1

/-! ### Cookie-scheme upload (`src/roblox_api/legacy.rs`) -/

/-- Decoded JSON body of the legacy upload endpoint
(`RawUploadResponse` in `src/roblox_api/legacy.rs`). -/
structure RawUploadResponse where
  success : Bool
  message : Option String
  asset_id : Option Nat
  backing_asset_id : Option Nat
deriving DecidableEq, Repr

/-- Success handling of `LegacyClient::upload_image`
(`src/roblox_api/legacy.rs` lines 129-147), given the already-decoded
raw response: when `success` is true both ids are `unwrap`-ed (a panic
when absent) and returned verbatim as the `UploadResponse`; when false
the `message` is `unwrap`-ed and reported as `ApiError`.  No call to
`resolve_web_asset_id` occurs. -/
def legacyUploadImage (raw : RawUploadResponse) : RustResult RobloxApiError UploadResponse :=
  if raw.success then
    match raw.asset_id with
    | none => .panicked unwrapNoneMsg
    | some asset_id =>
        match raw.backing_asset_id with
        | none => .panicked unwrapNoneMsg
        | some backing_asset_id => .ok { asset_id := asset_id, backing_asset_id := backing_asset_id }
  else
    match raw.message with
    | none => .panicked unwrapNoneMsg
    | some message => .err (.ApiError message)

/-! ### Backing-identifier resolver (`src/roblox_api/mod.rs`) -/

/-- Event of the hand-rolled XML pull parser (`xml::reader::XmlEvent`),
restricted to the shapes `resolve_web_asset_id` distinguishes.  Element
names are plain strings (the code compares against
`OwnedName::from_str("roblox")` and `"url"`). -/
inductive XmlEvent where
  | startDocument
  | endDocument
  | startElement (name : String)
  | endElement (name : String)
  | characters (s : String)
  | processingInstruction (name : String)
deriving DecidableEq, Repr

/-- One `parser.next()` outcome: either an event or a parser error
(carried as its message). -/
abbrev XmlPull := Except String XmlEvent

/-- Result of `resolve_web_asset_id`: a resolved id, an `anyhow` error
(`bail!` or id-parse failure), or divergence of the url-search loop. -/
inductive ResolveOutcome where
  | ok (asset_id : Nat)
  | error (msg : String)
  | diverges
deriving DecidableEq, Repr

/-- Marker the url content is split on in `resolve_web_asset_id`. -/
def assetUrlMarker : String := "http://www.roblox.com/asset/?id="

/-- Splits a character sequence at the first occurrence of `sep`
(Rust `str::split` semantics): the segment before the occurrence, and
the remainder after it (`none` when `sep` does not occur). -/
def splitFirst (sep : List Char) : List Char → List Char × Option (List Char)
  | [] => ([], none)
  | c :: rest =>
      if sep.isPrefixOf (c :: rest) then ([], some (List.drop sep.length (c :: rest)))
      else
        let p := splitFirst sep rest
        (c :: p.1, p.2)

/-- Second segment of `str::split`: the text between the first and
second occurrences of `sep` (or up to the end), `none` when `sep` does
not occur at all. -/
def secondSegment (sep l : List Char) : Option (List Char) :=
  match (splitFirst sep l).2 with
  | none => none
  | some rem => some (splitFirst sep rem).1

/-- Trailing-id extraction of `resolve_web_asset_id`
(`src/roblox_api/mod.rs` lines 160-170): split the url content on the
marker; the first segment always exists, the second is required
(`bail!` otherwise) and parsed as the id (`u64::from_str`). -/
def extractTrailingId (content : String) : ResolveOutcome :=
  match secondSegment assetUrlMarker.data content.data with
  | none => .error "missing asset id - did Roblox change their asset ID format?"
  | some s =>
      match parseU64 s with
      | some asset_id => .ok asset_id
      | none => .error "invalid digit found in string"

/-- Url-search loop of `resolve_web_asset_id`
(`src/roblox_api/mod.rs` lines 141-154): pull events until an
`Ok(StartElement)` named `url` arrives (any other pull, including parser
errors and non-`url` start elements, just continues the loop); then the
next pull must be `Ok(Characters)` (`bail!` otherwise), whose content is
handed to the trailing-id extraction.  The input list is the full
sequence of pulls up to the end of the document; past it the real parser
repeats end-of-document results forever, none of which is a start
element, so exhausting the list without a `url` start element means the
loop never terminates — reported as `diverges`. -/
def findUrlContent : List XmlPull → ResolveOutcome
  | [] => .diverges
  | .ok (.startElement name) :: rest =>
      if name = "url" then
        match rest with
        | .ok (.characters s) :: _ => extractTrailingId s
        | _ => .error "expected characters after url start element, got something else"
      else findUrlContent rest
  | _ :: rest => findUrlContent rest

/-- Backing-identifier resolver (`resolve_web_asset_id` in
`src/roblox_api/mod.rs`), over the pull sequence of the delivery
endpoint's response body.  A first pull that is not
`Ok(StartDocument)` returns the input id unchanged; then, when the next
pull is `Ok(StartElement)`, a root named other than `roblox` is an
error and a `roblox` root enters the url-search loop; when the next
pull is anything else the function falls through to the final
`Ok(asset_id)`, returning the input id. -/
def resolve_web_asset_id (asset_id : Nat) (pulls : List XmlPull) : ResolveOutcome :=
  match pulls with
  | .ok .startDocument :: rest =>
      match rest with
      | .ok (.startElement name) :: rest2 =>
          if name = "roblox" then findUrlContent rest2
          else .error "Unknown XML from asset delivery API"
      | _ => .ok asset_id
  | _ => .ok asset_id

/-! ### Cache-map builder (`src/commands/create_cache_map.rs`) -/

/-- Logical name of one input image (`AssetName` in
`src/asset_name.rs`, not under `src/`).  Modelled from the spec: a
totally-ordered, hashable key — a project-relative path string; its
`to_string` is the path itself. -/
abbrev AssetName := String

/-- Insertion of a key into a sorted duplicate-free list, modelling the
key set of the `BTreeMap` that `create_cache_map` builds with
`entry(id).or_default()`. -/
def insortNodup (x : Nat) : List Nat → List Nat
  | [] => [x]
  | y :: ys =>
      if x < y then x :: y :: ys
      else if x = y then y :: ys
      else y :: insortNodup x ys

/-- Identifiers present across the manifest inputs, as the sorted
duplicate-free key list of the `uploaded_inputs : BTreeMap` built by
the first loop of `create_cache_map` (lines 66-72): every input carrying
`Some(id)` contributes its id.  The manifest's `inputs` map is passed as
an association list. -/
def presentIds (inputs : List (AssetName × Option Nat)) : List Nat :=
  (inputs.filterMap Prod.snd).foldl (fun acc id => insortNodup id acc) []

/-- Contributors of one identifier: the names of the inputs whose
uploaded identifier is `some id`, in manifest-iteration order — the
`Vec<&AssetName>` value of the `uploaded_inputs` map. -/
def contributors (inputs : List (AssetName × Option Nat)) (id : Nat) : List AssetName :=
  inputs.filterMap (fun p => if p.2 = some id then some p.1 else none)

/-- The `uploaded_inputs` map of `create_cache_map`, as its sorted entry
list. -/
def uploadedInputsMap (inputs : List (AssetName × Option Nat)) :
    List (Nat × List AssetName) :=
  (presentIds inputs).map (fun id => (id, contributors inputs id))

/-- The cache path `options.cache_dir.join(id.to_string())` rendered by
`path.display()`. -/
def cachePath (cacheDir : String) (id : Nat) : String :=
  cacheDir ++ "/" ++ Nat.repr id

/-- Body of the second loop of `create_cache_map` (lines 74-85) for one
entry of `uploaded_inputs`: a single contributor maps the id to that
contributor's path string with no download; several contributors
download the id once, write the bytes to the cache path and map the id
to it.  The accumulator carries the `index` entries inserted so far
(insertion in ascending key order, so the list is the `BTreeMap`
iteration order) and the log of ids passed to
`api_client.download_image`. -/
def cacheMapStep (cacheDir : String) (acc : List (Nat × String) × List Nat)
    (entry : Nat × List AssetName) : List (Nat × String) × List Nat :=
  if entry.2.length = 1 then
    (acc.1 ++ [(entry.1, entry.2.headI)], acc.2)
  else
    (acc.1 ++ [(entry.1, cachePath cacheDir entry.1)], acc.2 ++ [entry.1])

/-- Index construction of `create_cache_map`
(`src/commands/create_cache_map.rs` lines 66-89): group the manifest
inputs by present uploaded identifier, then fold the per-identifier
step over the sorted groups.  Returns the `index` entry list (the
mapping serialized to the index file) and the download log (the ids
fetched through the API client, in order). -/
def create_cache_map (cacheDir : String) (inputs : List (AssetName × Option Nat)) :
    List (Nat × String) × List Nat :=
  (uploadedInputsMap inputs).foldl (cacheMapStep cacheDir) ([], [])

/-! ### Manifest store (`src/data/manifest.rs`)

The manifest structures are from `src/data/manifest.rs`.  The two
configuration snapshot types live in repository code that is not under
`src/` (`GroupConfig` and `InputConfig` are imported from `super`, i.e.
`data/mod.rs`, which is absent), and serialization goes through the
external `toml` crate; both are modelled from the spec below.  Maps
(`HashMap`) are modelled as association lists and ordered sets
(`BTreeSet`) as lists. -/

/-- Sub-rectangle of a packed sheet (`ImageSlice` in
`src/data/manifest.rs`): inclusive/exclusive pixel-coordinate pair. -/
structure ImageSlice where
  min : Nat × Nat
  max : Nat × Nat
deriving DecidableEq, Repr

/-- Modelled from the spec: `InputConfig` (the hierarchical
configuration snapshot applied at upload time, `data/mod.rs` is missing
from `src/`); its concrete fields are not specified, so it is carried
as an opaque snapshot rendering. -/
structure InputConfig where
  snapshot : String
deriving DecidableEq, Repr

/-- Modelled from the spec: `GroupConfig` (the packing/group
configuration snapshot of a group, `data/mod.rs` is missing from
`src/`); carried as an opaque snapshot rendering. -/
structure GroupConfig where
  snapshot : String
deriving DecidableEq, Repr

/-- Per-input sync record (`InputManifest` in `src/data/manifest.rs`):
all four fields optional. -/
structure InputManifest where
  uploaded_hash : Option String
  uploaded_id : Option Nat
  uploaded_slice : Option ImageSlice
  uploaded_config : Option InputConfig
deriving DecidableEq, Repr

/-- Per-group sync record (`GroupManifest` in `src/data/manifest.rs`). -/
structure GroupManifest where
  inputs : List AssetName
  outputs : List Nat
  config : GroupConfig
deriving DecidableEq, Repr

/-- Root persisted state (`Manifest` in `src/data/manifest.rs`). -/
structure Manifest where
  groups : List (String × GroupManifest)
  inputs : List (AssetName × InputManifest)
deriving DecidableEq, Repr

/-- Modelled from the spec: the TOML document tree the `toml` crate
serializes to and parses from (integers, strings, arrays, tables).
The byte-level rendering is the external crate; round-tripping is
settled at this value level. -/
inductive TomlValue where
  | int (n : Nat)
  | str (s : String)
  | array (xs : List TomlValue)
  | table (entries : List (String × TomlValue))

/-- Encoding of an `ImageSlice`: the `(u32, u32)` pairs serialize as
two-element arrays. -/
def encodeSlice (s : ImageSlice) : TomlValue :=
  .table [("min", .array [.int s.min.1, .int s.min.2]),
          ("max", .array [.int s.max.1, .int s.max.2])]

/-- Encoding of an `InputManifest`: kebab-case keys
(`#[serde(rename_all = "kebab-case")]`), `None` fields omitted from the
table as the `toml` serializer does. -/
def encodeInputManifest (i : InputManifest) : TomlValue :=
  .table
    ((match i.uploaded_hash with
      | none => []
      | some h => [("uploaded-hash", TomlValue.str h)]) ++
     (match i.uploaded_id with
      | none => []
      | some n => [("uploaded-id", TomlValue.int n)]) ++
     (match i.uploaded_slice with
      | none => []
      | some s => [("uploaded-slice", encodeSlice s)]) ++
     (match i.uploaded_config with
      | none => []
      | some c => [("uploaded-config", TomlValue.str c.snapshot)]))

/-- Encoding of a `GroupManifest`: the `inputs` and `outputs` sets as
arrays, followed by the flattened (`#[serde(flatten)]`) configuration
snapshot. -/
def encodeGroupManifest (g : GroupManifest) : TomlValue :=
  .table [("inputs", .array (g.inputs.map .str)),
          ("outputs", .array (g.outputs.map .int)),
          ("config-snapshot", .str g.config.snapshot)]

/-- Encoding of the whole `Manifest`: the two maps as tables keyed by
group name and asset name. -/
def encodeManifest (m : Manifest) : TomlValue :=
  .table [("groups", .table (m.groups.map (fun e => (e.1, encodeGroupManifest e.2)))),
          ("inputs", .table (m.inputs.map (fun e => (e.1, encodeInputManifest e.2))))]

/-- Decodes a two-element integer array back into a pair. -/
def decodeNatPair : TomlValue → Option (Nat × Nat)
  | .array [.int a, .int b] => some (a, b)
  | _ => none

/-- Decodes an `ImageSlice` table. -/
def decodeSlice : TomlValue → Option ImageSlice
  | .table [("min", mi), ("max", ma)] => do
      let mi ← decodeNatPair mi
      let ma ← decodeNatPair ma
      pure { min := mi, max := ma }
  | _ => none

/-- Looks up an optional field of a table: an absent key decodes to
`none`, a present key must decode with `dec`. -/
def lookupOptField {α : Type} (entries : List (String × TomlValue)) (key : String)
    (dec : TomlValue → Option α) : Option (Option α) :=
  match entries.lookup key with
  | none => some none
  | some v => (dec v).map some

/-- Decodes a string value. -/
def decodeStr : TomlValue → Option String
  | .str s => some s
  | _ => none

/-- Decodes an integer value. -/
def decodeInt : TomlValue → Option Nat
  | .int n => some n
  | _ => none

/-- Decodes an `InputConfig` snapshot. -/
def decodeInputConfig : TomlValue → Option InputConfig
  | .str s => some { snapshot := s }
  | _ => none

/-- Decodes an `InputManifest` table by its four optional kebab-case
fields. -/
def decodeInputManifest : TomlValue → Option InputManifest
  | .table es => do
      let h ← lookupOptField es "uploaded-hash" decodeStr
      let n ← lookupOptField es "uploaded-id" decodeInt
      let s ← lookupOptField es "uploaded-slice" decodeSlice
      let c ← lookupOptField es "uploaded-config" decodeInputConfig
      pure { uploaded_hash := h, uploaded_id := n, uploaded_slice := s, uploaded_config := c }
  | _ => none

/-- Decodes a homogeneous string array. -/
def decodeStrList : List TomlValue → Option (List String)
  | [] => some []
  | .str s :: rest => (decodeStrList rest).map (s :: ·)
  | _ => none

/-- Decodes a homogeneous integer array. -/
def decodeIntList : List TomlValue → Option (List Nat)
  | [] => some []
  | .int n :: rest => (decodeIntList rest).map (n :: ·)
  | _ => none

/-- Decodes a `GroupManifest` table. -/
def decodeGroupManifest : TomlValue → Option GroupManifest
  | .table [("inputs", .array ins), ("outputs", .array outs), ("config-snapshot", .str s)] => do
      let ins ← decodeStrList ins
      let outs ← decodeIntList outs
      pure { inputs := ins, outputs := outs, config := { snapshot := s } }
  | _ => none

/-- Decodes every entry of a table with one value decoder, failing when
any value fails. -/
def decodeEntries {α : Type} (dec : TomlValue → Option α) :
    List (String × TomlValue) → Option (List (String × α))
  | [] => some []
  | (k, v) :: rest =>
      match dec v with
      | none => none
      | some a => (decodeEntries dec rest).map ((k, a) :: ·)

/-- Decodes a whole `Manifest` document. -/
def decodeManifest : TomlValue → Option Manifest
  | .table [("groups", .table ges), ("inputs", .table ies)] => do
      let gs ← decodeEntries decodeGroupManifest ges
      let is ← decodeEntries decodeInputManifest ies
      pure { groups := gs, inputs := is }
  | _ => none

/-- Name of the manifest file (`MANIFEST_FILENAME` in
`src/data/manifest.rs`). -/
def MANIFEST_FILENAME : String := "tarmac-manifest.toml"

/-- A folder, as the association of file names to parsed file
contents. -/
abbrev Folder := List (String × TomlValue)

/-- Error type of the manifest store (`ManifestError` in
`src/data/manifest.rs`); the `Io` payload is reduced to whether the
file was absent. -/
inductive ManifestError where
  | DeserializeToml
  | SerializeToml
  | Io (notFound : Bool)

/-- Writing the manifest (`Manifest::write_to_folder`): serialize and
replace the manifest file wholesale; other files are untouched. -/
def Manifest.write_to_folder (m : Manifest) (folder : Folder) : Folder :=
  (MANIFEST_FILENAME, encodeManifest m) :: folder.filter (fun e => e.1 ≠ MANIFEST_FILENAME)

/-- Reading the manifest (`Manifest::read_from_folder`): an absent file
is the not-found `Io` error, malformed content is `DeserializeToml`. -/
def Manifest.read_from_folder (folder : Folder) : Except ManifestError Manifest :=
  match folder.lookup MANIFEST_FILENAME with
  | none => .error (.Io true)
  | some v =>
      match decodeManifest v with
      | none => .error .DeserializeToml
      | some m => .ok m

/-! ## Theorems -/

/-- C1 (amended): the factory fails with `MissingAuth` when neither
token nor API key is present; with an API key present it attempts the
key-scheme client, which is returned when exactly one of the creator
ids is supplied but panics (`unreachable!`) when both or neither is;
with a token and no API key the cookie-scheme client is returned. -/
theorem get_preferred_client_selection (csrfFetch : Option String) (c : RobloxCredentials) :
    (c.token = none → c.api_key = none →
      get_preferred_client csrfFetch c = .err .MissingAuth) ∧
    (c.api_key.isSome →
      ((∃ g, c.group_id = some g ∧ c.user_id = none) ∨
          (∃ u, c.user_id = some u ∧ c.group_id = none) →
        ∃ client, get_preferred_client csrfFetch c = .ok (.openCloud client)) ∧
      (c.group_id.isSome = c.user_id.isSome →
        get_preferred_client csrfFetch c = .panicked unreachableMsg)) ∧
    (c.api_key = none → c.token.isSome →
      ∃ client, get_preferred_client csrfFetch c = .ok (.legacy client)) := by
  obtain ⟨t, k, u, g⟩ := c
  cases t <;> cases k <;> cases u <;> cases g <;>
    simp [get_preferred_client, OpenCloudClient.new, creatorFromCredentials,
      RustResult.bind, RustResult.map, LegacyClient.new]

/-- Witness for C1: the three selection outcomes and the panic at
concrete credentials. -/
theorem get_preferred_client_selection_witness :
    (∃ client,
      get_preferred_client none ⟨none, some "key", none, some 5⟩ = .ok (.openCloud client)) ∧
    (∃ client,
      get_preferred_client none ⟨some "tok", none, none, none⟩ = .ok (.legacy client)) ∧
    get_preferred_client none ⟨none, none, none, none⟩ = .err .MissingAuth ∧
    get_preferred_client none ⟨none, some "key", none, none⟩ = .panicked unreachableMsg := by
  refine ⟨((get_preferred_client_selection none ⟨none, some "key", none, some 5⟩).2.1
      (by decide)).1 (Or.inl ⟨5, rfl, rfl⟩),
    (get_preferred_client_selection none ⟨some "tok", none, none, none⟩).2.2 rfl (by decide),
    (get_preferred_client_selection none ⟨none, none, none, none⟩).1 rfl rfl,
    ((get_preferred_client_selection none ⟨none, some "key", none, none⟩).2.1
      (by decide)).2 rfl⟩

/-- Counterexample for C1 as stated: with an API key present but no
creator id, the factory does not return the key-scheme client — it
panics, returning no client at all. -/
theorem get_preferred_client_panics_on_missing_creator_context :
    get_preferred_client none ⟨none, some "key", none, none⟩ = .panicked unreachableMsg ∧
    (get_preferred_client none ⟨none, some "key", none, none⟩).isOk = false := by
  exact ⟨rfl, rfl⟩

/-- C5: constructing the key-scheme client with an API key but with
both creator ids absent, or with both present, executes `unreachable!()`
and aborts the process instead of returning an error; with exactly one
creator id the construction succeeds. -/
theorem OpenCloudClient_new_panics_without_unique_creator :
    OpenCloudClient.new ⟨none, some "key", none, none⟩ = .panicked unreachableMsg ∧
    OpenCloudClient.new ⟨none, some "key", some 1, some 2⟩ = .panicked unreachableMsg ∧
    OpenCloudClient.new ⟨none, some "key", some 1, none⟩ =
      .ok ⟨⟨none, some "key", some 1, none⟩, .user "1"⟩ ∧
    OpenCloudClient.new ⟨none, some "key", none, some 2⟩ =
      .ok ⟨⟨none, some "key", none, some 2⟩, .group "2"⟩ := by
  exact ⟨rfl, rfl, rfl, rfl⟩

/-- C6: on the well-formed document `<roblox></roblox>` — start
document, `roblox` root, no `url` element — the resolver neither
errors nor falls back: its url-search loop never terminates (the
`missing url element` bail in the source is unreachable). -/
theorem resolve_web_asset_id_diverges_on_missing_url :
    resolve_web_asset_id 777
      [.ok .startDocument, .ok (.startElement "roblox"),
       .ok (.endElement "roblox"), .ok .endDocument] = .diverges := by
  rfl

/-- C7 (amended): on a successful raw response the cookie-scheme upload
returns the `asset_id` and `backing_asset_id` exactly as reported by the
endpoint JSON; the backing-id resolver is not invoked. -/
theorem legacyUploadImage_returns_raw_ids (raw : RawUploadResponse) (a b : Nat)
    (hs : raw.success = true) (ha : raw.asset_id = some a)
    (hb : raw.backing_asset_id = some b) :
    legacyUploadImage raw = .ok { asset_id := a, backing_asset_id := b } := by
  simp [legacyUploadImage, hs, ha, hb]

/-- Witness for C7's amended statement at a concrete raw response. -/
theorem legacyUploadImage_returns_raw_ids_witness :
    legacyUploadImage { success := true, message := none, asset_id := some 7,
                        backing_asset_id := some 8 } =
      .ok { asset_id := 7, backing_asset_id := 8 } := by
  exact legacyUploadImage_returns_raw_ids _ 7 8 rfl rfl rfl

/-- Counterexample for C7 as stated: a successful upload whose raw
response reports public id 7 and backing id 8 yields public id 7
verbatim, even though resolving backing id 8 against a well-formed
descriptor yields 12345 — the upload result does not equal the
resolver's output applied to the backing id. -/
theorem legacyUploadImage_ignores_resolver_counterexample :
    legacyUploadImage { success := true, message := none, asset_id := some 7,
                        backing_asset_id := some 8 } =
      .ok { asset_id := 7, backing_asset_id := 8 } ∧
    resolve_web_asset_id 8
      [.ok .startDocument, .ok (.startElement "roblox"), .ok (.startElement "url"),
       .ok (.characters "http://www.roblox.com/asset/?id=12345")] = .ok 12345 ∧
    (7 : Nat) ≠ 12345 := by
  refine ⟨rfl, by decide, by decide⟩

/-- C10: when the wrapped API call succeeds, the remote sync backend's
result id is `AssetId::Id` of the client's `backing_asset_id`, and the
public-facing `asset_id` field is discarded — changing it does not
change the backend's result. -/
theorem robloxSyncUpload_uses_backing_id (response : UploadResponse) :
    robloxSyncUpload (.ok response) = .ok { id := AssetId.Id response.backing_asset_id } ∧
    ∀ a, robloxSyncUpload (.ok { response with asset_id := a }) =
      robloxSyncUpload (.ok response) := by
  exact ⟨rfl, fun _ => rfl⟩

/-- C4: evaluation at the claim's central input — a first response of
403 carrying an `X-CSRF-Token` header — shows the client caches the
token and then deadlocks after a single execution (the held write
guard blocks `attach_headers`' read acquisition), so the retry never
happens and no response is returned; a 403 without the header and a
non-403 status return the first response after one execution, as
claimed. -/
theorem execute_with_csrf_retry_deadlocks :
    execute_with_csrf_retry none none (fun _ => ⟨403, some "T"⟩) =
      .deadlocked (some "T") 1 ∧
    execute_with_csrf_retry none none (fun _ => ⟨403, none⟩) =
      .returned ⟨403, none⟩ none 1 ∧
    execute_with_csrf_retry none none (fun _ => ⟨200, none⟩) =
      .returned ⟨200, none⟩ none 1 := by
  exact ⟨rfl, rfl, rfl⟩

/-- Unfolding equation of `retryLoop` in the running case. -/
theorem retryLoop_lt (inner : Nat → Except SyncError SyncUploadResponse)
    (attempts index : Nat) (h : index < attempts) :
    retryLoop inner attempts index =
      match inner index with
      | .ok response => (.ok response, index + 1)
      | .error _ => retryLoop inner attempts (index + 1) := by
  rw [retryLoop, if_pos h]

/-- Unfolding equation of `retryLoop` in the exhausted case. -/
theorem retryLoop_ge (inner : Nat → Except SyncError SyncUploadResponse)
    (attempts index : Nat) (h : ¬ index < attempts) :
    retryLoop inner attempts index = (.error .RateLimited, index) := by
  rw [retryLoop, if_neg h]

/-- When every attempt from `index` on fails, the loop exhausts its
budget and reports `RateLimited` after `attempts` calls in total. -/
theorem retryLoop_all_fail (inner : Nat → Except SyncError SyncUploadResponse)
    (attempts : Nat) :
    ∀ index, index ≤ attempts →
      (∀ i, index ≤ i → i < attempts → ∀ r, inner i ≠ .ok r) →
      retryLoop inner attempts index = (.error .RateLimited, attempts) := by
  suffices h : ∀ fuel index, attempts - index = fuel → index ≤ attempts →
      (∀ i, index ≤ i → i < attempts → ∀ r, inner i ≠ .ok r) →
      retryLoop inner attempts index = (.error .RateLimited, attempts) by
    intro index hle hfail
    exact h (attempts - index) index rfl hle hfail
  intro fuel
  induction fuel with
  | zero =>
      intro index hfuel hle _
      have : index = attempts := by omega
      subst this
      exact retryLoop_ge inner index index (by omega)
  | succ fuel ih =>
      intro index hfuel hle hfail
      have hlt : index < attempts := by omega
      rw [retryLoop_lt inner attempts index hlt]
      cases hinner : inner index with
      | ok r => exact absurd hinner (hfail index le_rfl hlt r)
      | error e =>
          exact ih (index + 1) (by omega) (by omega)
            (fun i hi hi2 r => hfail i (by omega) hi2 r)

/-- When attempt `k` is the first success, the loop returns that
response after exactly `k + 1` calls. -/
theorem retryLoop_first_success (inner : Nat → Except SyncError SyncUploadResponse)
    (attempts k : Nat) (response : SyncUploadResponse) (hk : k < attempts)
    (hsucc : inner k = .ok response) :
    ∀ index, index ≤ k → (∀ i, index ≤ i → i < k → ∀ r, inner i ≠ .ok r) →
      retryLoop inner attempts index = (.ok response, k + 1) := by
  suffices h : ∀ fuel index, k - index = fuel → index ≤ k →
      (∀ i, index ≤ i → i < k → ∀ r, inner i ≠ .ok r) →
      retryLoop inner attempts index = (.ok response, k + 1) by
    intro index hle hfail
    exact h (k - index) index rfl hle hfail
  intro fuel
  induction fuel with
  | zero =>
      intro index hfuel hle _
      have : index = k := by omega
      subst this
      rw [retryLoop_lt inner attempts index (by omega), hsucc]
  | succ fuel ih =>
      intro index hfuel hle hfail
      have hlt : index < attempts := by omega
      rw [retryLoop_lt inner attempts index hlt]
      cases hinner : inner index with
      | ok r => exact absurd hinner (hfail index le_rfl (by omega) r)
      | error e =>
          exact ih (index + 1) (by omega) (by omega)
            (fun i hi hi2 r => hfail i (by omega) hi2 r)

/-- The loop never makes more than `attempts` calls. -/
theorem retryLoop_calls_le (inner : Nat → Except SyncError SyncUploadResponse)
    (attempts : Nat) :
    ∀ index, index ≤ attempts → (retryLoop inner attempts index).2 ≤ attempts := by
  suffices h : ∀ fuel index, attempts - index = fuel → index ≤ attempts →
      (retryLoop inner attempts index).2 ≤ attempts by
    intro index hle
    exact h (attempts - index) index rfl hle
  intro fuel
  induction fuel with
  | zero =>
      intro index hfuel hle
      rw [retryLoop_ge inner attempts index (by omega)]
      omega
  | succ fuel ih =>
      intro index hfuel hle
      rw [retryLoop_lt inner attempts index (by omega)]
      cases inner index with
      | ok r => simpa using by omega
      | error e => exact ih (index + 1) (by omega) (by omega)

/-- C3: the retry decorator makes at most `max_retries + 1` inner
calls; when every allowed attempt fails it returns `RateLimited` after
exactly `max_retries + 1` calls, whatever the underlying failures
were; and when attempt `k` (zero-based) is the first success it returns
that success after exactly `k + 1` calls, making no further attempts. -/
theorem retryUpload_spec (max_retries : Nat)
    (inner : Nat → Except SyncError SyncUploadResponse) :
    (retryUpload max_retries inner).2 ≤ max_retries + 1 ∧
    ((∀ i, i < max_retries + 1 → ∀ r, inner i ≠ .ok r) →
      retryUpload max_retries inner = (.error .RateLimited, max_retries + 1)) ∧
    (∀ k response, k < max_retries + 1 → (∀ i, i < k → ∀ r, inner i ≠ .ok r) →
      inner k = .ok response →
      retryUpload max_retries inner = (.ok response, k + 1)) := by
  refine ⟨retryLoop_calls_le inner (max_retries + 1) 0 (by omega), fun hfail => ?_,
    fun k response hk hfail hsucc => ?_⟩
  · exact retryLoop_all_fail inner (max_retries + 1) 0 (by omega)
      (fun i _ hi r => hfail i hi r)
  · exact retryLoop_first_success inner (max_retries + 1) k response hk hsucc 0 (by omega)
      (fun i _ hi r => hfail i hi r)

/-- Witness for C3: with `max_retries = 2` and an always-failing inner
backend, exactly 3 attempts occur and the result is `RateLimited`; with
an inner backend succeeding on the 2nd attempt, exactly 2 attempts
occur and the success is returned. -/
theorem retryUpload_spec_witness :
    retryUpload 2 (fun _ => .error .NoneBackend) = (.error .RateLimited, 3) ∧
    retryUpload 2 (fun i => if i = 1 then .ok ⟨AssetId.Id 10⟩ else .error .RateLimited) =
      (.ok ⟨AssetId.Id 10⟩, 2) := by
  constructor
  · exact (retryUpload_spec 2 (fun _ => .error .NoneBackend)).2.1
      (fun i _ r h => by simp at h)
  · exact (retryUpload_spec 2
        (fun i => if i = 1 then .ok ⟨AssetId.Id 10⟩ else .error .RateLimited)).2.2 1 ⟨AssetId.Id 10⟩
      (by omega) (fun i hi r h => by interval_cases i; simp at h) rfl

/-- Consuming `n` consecutive pending replies, while the retry budget
is not yet exceeded, advances the counters by `n` and appends the
quadratic backoff sleeps for counts `retry_count + 1` through
`retry_count + n`. -/
theorem pollLoop_replicate_pending (rest : List (Option String)) :
    ∀ n rc polls sleeps, rc + n ≤ MAX_RETRIES + 1 →
      pollLoop (List.replicate n none ++ rest) rc polls sleeps =
        pollLoop rest (rc + n) (polls + n)
          (sleeps ++ (List.range' (rc + 1) n).map fun k => INITIAL_SLEEP_MS * k ^ 2) := by
  intro n
  induction n with
  | zero => intro rc polls sleeps _; simp
  | succ n ih =>
      intro rc polls sleeps h
      rw [List.replicate_succ, List.cons_append]
      have hle : ¬ rc > MAX_RETRIES := by simp only [MAX_RETRIES] at h ⊢; omega
      rw [show pollLoop (none :: (List.replicate n none ++ rest)) rc polls sleeps =
          pollLoop (List.replicate n none ++ rest) (rc + 1) (polls + 1)
            (sleeps ++ [INITIAL_SLEEP_MS * (rc + 1) ^ 2]) from by
        rw [pollLoop, if_neg hle]]
      rw [ih (rc + 1) (polls + 1) _ (by omega)]
      have h1 : rc + 1 + n = rc + (n + 1) := by omega
      have h2 : polls + 1 + n = polls + (n + 1) := by omega
      rw [h1, h2, List.range'_succ, List.map_cons, List.append_assoc, List.singleton_append]

/-- C2 (amended): for every `N ≤ 6` (`MAX_RETRIES + 1`), `N` pending
poll replies followed by a completed reply make the upload succeed after
exactly `N + 1` polls, with backoff sleeps `base*1, base*4, ...,
base*N^2` (base 50ms); and only after 7 (`MAX_RETRIES + 2`)
consecutive pending replies does it fail with `AssetGetFailed` — the
check `retry_count > MAX_RETRIES` runs before the increment, so 6
sleeps are performed and the failure happens on the 7th pending poll,
not after 5 unsuccessful polls. -/
theorem uploadPollPhase_backoff_spec (N : Nat) (s : String) (id : Nat)
    (rest rest2 : List (Option String)) (hN : N ≤ MAX_RETRIES + 1)
    (hs : parseU64 s.data = some id) :
    uploadPollPhase (List.replicate N none ++ some s :: rest) =
      .ok id (N + 1) ((List.range' 1 N).map fun k => INITIAL_SLEEP_MS * k ^ 2) ∧
    uploadPollPhase (List.replicate (MAX_RETRIES + 2) none ++ rest2) =
      .assetGetFailed (MAX_RETRIES + 2)
        ((List.range' 1 (MAX_RETRIES + 1)).map fun k => INITIAL_SLEEP_MS * k ^ 2) := by
  constructor
  · rw [uploadPollPhase, pollLoop_replicate_pending _ N 0 0 [] (by omega)]
    simp [pollLoop, hs]
  · rw [uploadPollPhase]
    have hsplit : List.replicate (MAX_RETRIES + 2) (none : Option String) ++ rest2 =
        List.replicate (MAX_RETRIES + 1) (none : Option String) ++ (none :: rest2) := by
      rw [List.replicate_succ' (MAX_RETRIES + 1), List.append_assoc, List.singleton_append]
    rw [hsplit, pollLoop_replicate_pending _ (MAX_RETRIES + 1) 0 0 [] (by omega)]
    rw [pollLoop, if_pos (by simp only [MAX_RETRIES]; omega)]
    simp

/-- Witness for C2's amended statement: three pendings then the reply
`42` succeed after four polls with sleeps 50, 200, 450ms; seven
pendings fail after seven polls and six sleeps. -/
theorem uploadPollPhase_backoff_spec_witness :
    uploadPollPhase (List.replicate 3 none ++ some "42" :: []) =
      .ok 42 4 [50, 200, 450] ∧
    uploadPollPhase (List.replicate (MAX_RETRIES + 2) none ++ []) =
      .assetGetFailed 7 [50, 200, 450, 800, 1250, 1800] := by
  obtain ⟨h1, h2⟩ := uploadPollPhase_backoff_spec 3 "42" 42 [] [] (by decide) (by decide)
  exact ⟨h1.trans (by decide), h2.trans (by decide)⟩

/-- Counterexample for C2 as stated: six consecutive pending replies do
not make the upload fail — a completed reply on the 7th poll still
succeeds (after 7 polls and sleeps 50..1800ms), so the loop does not
stop after 5 unsuccessful polls. -/
theorem uploadPollPhase_six_pending_succeeds :
    uploadPollPhase (List.replicate 6 none ++ [some "123"]) =
      .ok 123 7 [50, 200, 450, 800, 1250, 1800] := by
  decide

/-- Membership in an `insortNodup` insertion. -/
theorem mem_insortNodup (a x : Nat) :
    ∀ l : List Nat, (a ∈ insortNodup x l ↔ a = x ∨ a ∈ l) := by
  intro l
  induction l with
  | nil => simp [insortNodup]
  | cons y ys ih =>
      by_cases h1 : x < y
      · rw [insortNodup, if_pos h1]
        simp [List.mem_cons]
      · by_cases h2 : x = y
        · rw [insortNodup, if_neg h1, if_pos h2]
          subst h2
          simp [List.mem_cons]
        · rw [insortNodup, if_neg h1, if_neg h2]
          simp only [List.mem_cons, ih]
          tauto

/-- An `insortNodup` insertion preserves strict sortedness. -/
theorem sorted_insortNodup (x : Nat) :
    ∀ l : List Nat, l.Sorted (· < ·) → (insortNodup x l).Sorted (· < ·) := by
  intro l
  induction l with
  | nil => intro _; simp [insortNodup]
  | cons y ys ih =>
      intro hs
      rw [List.sorted_cons] at hs
      obtain ⟨hy, hys⟩ := hs
      by_cases h1 : x < y
      · rw [insortNodup, if_pos h1, List.sorted_cons]
        refine ⟨fun b hb => ?_, ?_⟩
        · rcases List.mem_cons.mp hb with rfl | hb
          · exact h1
          · exact h1.trans (hy b hb)
        · rw [List.sorted_cons]
          exact ⟨hy, hys⟩
      · by_cases h2 : x = y
        · rw [insortNodup, if_neg h1, if_pos h2, List.sorted_cons]
          exact ⟨hy, hys⟩
        · rw [insortNodup, if_neg h1, if_neg h2, List.sorted_cons]
          refine ⟨fun b hb => ?_, ih hys⟩
          rcases (mem_insortNodup b x ys).mp hb with rfl | hb
          · omega
          · exact hy b hb

/-- Sortedness of the fold building the `BTreeMap` key set. -/
theorem sorted_foldl_insortNodup (xs : List Nat) :
    ∀ acc : List Nat, acc.Sorted (· < ·) →
      (xs.foldl (fun acc id => insortNodup id acc) acc).Sorted (· < ·) := by
  induction xs with
  | nil => intro acc h; exact h
  | cons x xs ih => intro acc h; exact ih _ (sorted_insortNodup x acc h)

/-- Membership in the fold building the `BTreeMap` key set. -/
theorem mem_foldl_insortNodup (a : Nat) (xs : List Nat) :
    ∀ acc, (a ∈ xs.foldl (fun acc id => insortNodup id acc) acc ↔ a ∈ acc ∨ a ∈ xs) := by
  induction xs with
  | nil => simp
  | cons x xs ih =>
      intro acc
      rw [List.foldl_cons, ih, mem_insortNodup]
      simp only [List.mem_cons]
      tauto

/-- The identifier key list is sorted. -/
theorem presentIds_sorted (inputs : List (AssetName × Option Nat)) :
    (presentIds inputs).Sorted (· < ·) :=
  sorted_foldl_insortNodup _ [] (by simp)

/-- An identifier is a key exactly when some input carries it. -/
theorem mem_presentIds (a : Nat) (inputs : List (AssetName × Option Nat)) :
    a ∈ presentIds inputs ↔ a ∈ inputs.filterMap Prod.snd := by
  rw [presentIds, mem_foldl_insortNodup]
  simp

/-- The contributor list of an identifier is empty exactly when no
input carries it. -/
theorem contributors_eq_nil_iff (inputs : List (AssetName × Option Nat)) (id : Nat) :
    contributors inputs id = [] ↔ ∀ p ∈ inputs, p.2 ≠ some id := by
  rw [contributors, List.filterMap_eq_nil_iff]
  constructor
  · intro h p hp hpe
    have := h p hp
    rw [if_pos hpe] at this
    simp at this
  · intro h p hp
    rw [if_neg (h p hp)]

/-- An identifier has contributors exactly when it is a key. -/
theorem contributors_ne_nil_iff (inputs : List (AssetName × Option Nat)) (id : Nat) :
    contributors inputs id ≠ [] ↔ id ∈ presentIds inputs := by
  rw [Ne, contributors_eq_nil_iff, mem_presentIds, List.mem_filterMap]
  push_neg
  rfl

/-- Looking up a key of a key-indexed map built by `map` finds its
value. -/
theorem lookup_map_self {α : Type} (f : Nat → α) (id : Nat) :
    ∀ xs : List Nat, id ∈ xs → (xs.map (fun i => (i, f i))).lookup id = some (f id) := by
  intro xs
  induction xs with
  | nil => simp
  | cons x xs ih =>
      intro hmem
      by_cases hx : id = x
      · subst hx
        simp [List.lookup]
      · have hxs : id ∈ xs := by
          rcases List.mem_cons.mp hmem with rfl | h
          · exact absurd rfl hx
          · exact h
        have hfalse : (id == x) = false := beq_eq_false_iff_ne.mpr hx
        simp [List.lookup, hfalse, ih hxs]

/-- Closed form of the cache-map fold: the index is the per-group entry
list and the download log the identifiers of the multi-contributor
groups, in order. -/
theorem foldl_cacheMapStep (cacheDir : String) :
    ∀ (gs : List (Nat × List AssetName)) (acc : List (Nat × String) × List Nat),
      gs.foldl (cacheMapStep cacheDir) acc =
        (acc.1 ++ gs.map (fun g =>
            (g.1, if g.2.length = 1 then g.2.headI else cachePath cacheDir g.1)),
         acc.2 ++ gs.filterMap (fun g => if g.2.length = 1 then none else some g.1)) := by
  intro gs
  induction gs with
  | nil => intro acc; simp
  | cons g gs ih =>
      intro acc
      rw [List.foldl_cons, ih]
      by_cases h : g.2.length = 1
      · simp [cacheMapStep, h]
      · simp [cacheMapStep, h]

/-- Closed form of `create_cache_map` in terms of `presentIds` and
`contributors`. -/
theorem create_cache_map_eq (cacheDir : String) (inputs : List (AssetName × Option Nat)) :
    create_cache_map cacheDir inputs =
      ((presentIds inputs).map (fun id =>
          (id, if (contributors inputs id).length = 1 then (contributors inputs id).headI
               else cachePath cacheDir id)),
       (presentIds inputs).filterMap (fun id =>
          if (contributors inputs id).length = 1 then none else some id)) := by
  rw [create_cache_map, foldl_cacheMapStep, uploadedInputsMap]
  simp [List.map_map, List.filterMap_map, Function.comp_def]

/-- C8: the emitted index is keyed by the sorted present identifiers;
an identifier with exactly one contributing input maps to that input's
path with no download of it; an identifier with two or more
contributors maps to the cache path `cacheDir/<id>` (one path shared by
all its contributors) and is downloaded exactly once. -/
theorem create_cache_map_spec (cacheDir : String) (inputs : List (AssetName × Option Nat)) :
    ((create_cache_map cacheDir inputs).1.map Prod.fst).Sorted (· < ·) ∧
    (∀ id n, contributors inputs id = [n] →
      (create_cache_map cacheDir inputs).1.lookup id = some n ∧
      id ∉ (create_cache_map cacheDir inputs).2) ∧
    (∀ id, 2 ≤ (contributors inputs id).length →
      (create_cache_map cacheDir inputs).1.lookup id = some (cachePath cacheDir id) ∧
      (create_cache_map cacheDir inputs).2.count id = 1) := by
  rw [create_cache_map_eq]
  refine ⟨?_, fun id n hcon => ⟨?_, ?_⟩, fun id hlen => ⟨?_, ?_⟩⟩
  · have : ((presentIds inputs).map (fun id =>
        (id, if (contributors inputs id).length = 1 then (contributors inputs id).headI
             else cachePath cacheDir id))).map Prod.fst = presentIds inputs := by
      rw [List.map_map]
      simp [Function.comp_def]
    rw [this]
    exact presentIds_sorted inputs
  · have hmem : id ∈ presentIds inputs :=
      (contributors_ne_nil_iff inputs id).mp (by rw [hcon]; simp)
    rw [lookup_map_self _ id _ hmem, hcon]
    simp
  · intro hin
    rw [List.mem_filterMap] at hin
    obtain ⟨i, _, hi⟩ := hin
    by_cases h : (contributors inputs i).length = 1
    · rw [if_pos h] at hi
      exact Option.noConfusion hi
    · rw [if_neg h] at hi
      have : i = id := Option.some.inj hi
      subst this
      rw [hcon] at h
      simp at h
  · have hmem : id ∈ presentIds inputs :=
      (contributors_ne_nil_iff inputs id).mp (by intro h; rw [h] at hlen; simp at hlen)
    rw [lookup_map_self _ id _ hmem, if_neg (by omega)]
  · have hmem : id ∈ presentIds inputs :=
      (contributors_ne_nil_iff inputs id).mp (by intro h; rw [h] at hlen; simp at hlen)
    have hnodup : ((presentIds inputs).filterMap (fun id =>
        if (contributors inputs id).length = 1 then none else some id)).Nodup := by
      refine List.Nodup.filterMap ?_ (presentIds_sorted inputs).nodup
      intro a a' b hb hb'
      by_cases h : (contributors inputs a).length = 1
      · rw [if_pos h] at hb
        exact absurd hb (by simp)
      · rw [if_neg h] at hb
        by_cases h' : (contributors inputs a').length = 1
        · rw [if_pos h'] at hb'
          exact absurd hb' (by simp)
        · rw [if_neg h'] at hb'
          rw [Option.mem_def, Option.some.injEq] at hb hb'
          omega
    have hin : id ∈ (presentIds inputs).filterMap (fun id =>
        if (contributors inputs id).length = 1 then none else some id) := by
      rw [List.mem_filterMap]
      exact ⟨id, hmem, by rw [if_neg (by omega)]⟩
    exact List.count_eq_one_of_mem hnodup hin

/-- Witness for C8 at a concrete manifest: inputs `a ↦ 1`, `b ↦ 2`,
`c ↦ 2`: identifier 1 (unique) maps to `a` and is not downloaded;
identifier 2 (shared) maps to `cache/2` and is downloaded exactly
once. -/
theorem create_cache_map_spec_witness :
    (create_cache_map "cache" [("a", some 1), ("b", some 2), ("c", some 2)]).1.lookup 1 =
      some "a" ∧
    1 ∉ (create_cache_map "cache" [("a", some 1), ("b", some 2), ("c", some 2)]).2 ∧
    (create_cache_map "cache" [("a", some 1), ("b", some 2), ("c", some 2)]).1.lookup 2 =
      some (cachePath "cache" 2) ∧
    (create_cache_map "cache" [("a", some 1), ("b", some 2), ("c", some 2)]).2.count 2 = 1 := by
  obtain ⟨-, h2, h3⟩ :=
    create_cache_map_spec "cache" [("a", some 1), ("b", some 2), ("c", some 2)]
  obtain ⟨hl1, hn1⟩ := h2 1 "a" (by decide)
  obtain ⟨hl2, hc2⟩ := h3 2 (by decide)
  exact ⟨hl1, hn1, hl2, hc2⟩

/-- Decoding inverts the `ImageSlice` encoding. -/
theorem decodeSlice_encode (s : ImageSlice) : decodeSlice (encodeSlice s) = some s := by
  rfl

/-- Decoding inverts the `InputManifest` encoding, whichever of the
four optional fields are present. -/
theorem decodeInputManifest_encode (i : InputManifest) :
    decodeInputManifest (encodeInputManifest i) = some i := by
  obtain ⟨h, n, s, c⟩ := i
  cases h <;> cases n <;> cases s <;> cases c <;> rfl

/-- Decoding inverts the string-array encoding. -/
theorem decodeStrList_map (xs : List String) : decodeStrList (xs.map .str) = some xs := by
  induction xs with
  | nil => rfl
  | cons x xs ih => simp [decodeStrList, ih]

/-- Decoding inverts the integer-array encoding. -/
theorem decodeIntList_map (xs : List Nat) : decodeIntList (xs.map .int) = some xs := by
  induction xs with
  | nil => rfl
  | cons x xs ih => simp [decodeIntList, ih]

/-- Decoding inverts the `GroupManifest` encoding. -/
theorem decodeGroupManifest_encode (g : GroupManifest) :
    decodeGroupManifest (encodeGroupManifest g) = some g := by
  simp [encodeGroupManifest, decodeGroupManifest, decodeStrList_map, decodeIntList_map]

/-- Decoding a table entry-wise inverts an entry-wise encoding. -/
theorem decodeEntries_map {α : Type} (dec : TomlValue → Option α) (enc : α → TomlValue)
    (h : ∀ a, dec (enc a) = some a) :
    ∀ es : List (String × α), decodeEntries dec (es.map (fun e => (e.1, enc e.2))) = some es := by
  intro es
  induction es with
  | nil => rfl
  | cons e es ih => simp [decodeEntries, h, ih]

/-- Decoding inverts the `Manifest` encoding. -/
theorem decodeManifest_encode (m : Manifest) :
    decodeManifest (encodeManifest m) = some m := by
  simp [encodeManifest, decodeManifest,
    decodeEntries_map decodeGroupManifest encodeGroupManifest decodeGroupManifest_encode,
    decodeEntries_map decodeInputManifest encodeInputManifest decodeInputManifest_encode]

/-- C9: writing a manifest to a folder and reading it back from the
same folder succeeds and returns a manifest equal to the original,
field for field (same groups with equal inputs, outputs and config;
same inputs with equal uploaded hash, id, slice and config). -/
theorem manifest_roundtrip (m : Manifest) (folder : Folder) :
    Manifest.read_from_folder (m.write_to_folder folder) = .ok m := by
  rw [Manifest.write_to_folder, Manifest.read_from_folder]
  simp [List.lookup, decodeManifest_encode]

end Runway
